import Mathlib

/-!
Verification of the SleepSupreme/sdh steganographic hiding pipeline.

This file gives a shallow embedding of the relevant parts of
`networks.py` and `utils/util.py` and proves properties of the embedding.

Tensors (`torch.Tensor` of rank 4) are modelled as nested lists of
rationals indexed as batch / channel / row / column.  Machine floats are
modelled as exact rationals: every claim treated here is about shapes,
dataflow and exact constants, not rounding.
-/

set_option maxHeartbeats 1000000

namespace SDH

/-- One image: channels / rows / columns of rational entries. -/
abbrev Image := List (List (List ℚ))

/-- A rank-4 tensor: a batch (list) of images. -/
abbrev Tensor := List Image

/-- Shape of a rank-4 tensor, i.e. the result of `x.size()`. -/
structure Shape4 where
  b : ℕ
  c : ℕ
  h : ℕ
  w : ℕ
deriving DecidableEq, Repr

/-- The shape `(b, c, h, w) = x.size()` read off a nested-list tensor
(dimensions of the first element at each level; for rectangular tensors
this is the actual shape). -/
def tShape (t : Tensor) : Shape4 :=
  ⟨t.length, (t.headD []).length, ((t.headD []).headD []).length,
    (((t.headD []).headD []).headD []).length⟩

/-- `img` is a rectangular image with `c` channels, `h` rows, `w` columns. -/
def isImgShape (img : Image) (c h w : ℕ) : Prop :=
  img.length = c ∧ ∀ ch ∈ img, ch.length = h ∧ ∀ row ∈ ch, row.length = w

instance (img : Image) (c h w : ℕ) : Decidable (isImgShape img c h w) := by
  unfold isImgShape; infer_instance

/-- `t` is a rectangular tensor of shape `[b, c, h, w]`. -/
def isShape (t : Tensor) (b c h w : ℕ) : Prop :=
  t.length = b ∧ ∀ img ∈ t, isImgShape img c h w

instance (t : Tensor) (b c h w : ℕ) : Decidable (isShape t b c h w) := by
  unfold isShape; infer_instance

/-- Elementwise combination of two tensors (used for `+` and `-` on
tensors of equal shape, e.g. `H_output + cover`). -/
def zipT (f : ℚ → ℚ → ℚ) (A B : Tensor) : Tensor :=
  List.zipWith (List.zipWith (List.zipWith (List.zipWith f))) A B

/-- Elementwise tensor addition, `A + B`. -/
def addT : Tensor → Tensor → Tensor := zipT (· + ·)

/-- Elementwise tensor subtraction, `A - B`. -/
def subT : Tensor → Tensor → Tensor := zipT (· - ·)

/-- Multiplication of a tensor by a scalar, `a * X`. -/
def smulT (a : ℚ) (t : Tensor) : Tensor :=
  t.map (List.map (List.map (List.map (fun x => a * x))))

/-- `torch.zeros(t.shape)`: an all-zero tensor with the shape of `t`. -/
def zerosLike (t : Tensor) : Tensor :=
  t.map (List.map (List.map (List.map (fun _ => (0 : ℚ)))))

/-- `torch.cat((A, B), dim=1)`: channel-wise concatenation (shapes are
assumed compatible by the caller, as at the call sites in
`forward_pass`, which asserts shape equality first). -/
def catDim1 (A B : Tensor) : Tensor :=
  List.zipWith (· ++ ·) A B

end SDH

namespace SDH

/-! ### networks.py: `get_norm_layer` (lines 8-27) -/

/-- The normalization layer kinds returned by `get_norm_layer`:
`nn.BatchNorm2d` (affine, no running stats), `nn.InstanceNorm2d`
(no affine, no running stats), or `Identity` for `'none'`. -/
inductive NormLayerKind where
  | batchNorm2d
  | instanceNorm2d
  | identity
deriving DecidableEq, Repr

/-- `get_norm_layer(norm_type)` from networks.py lines 19-27: dispatch on
the `norm_type` string; an unknown string raises `NotImplementedError`
with a message naming the offending value (modelled as `Except.error`). -/
def get_norm_layer (norm_type : String) : Except String NormLayerKind :=
  if norm_type = "batch" then .ok .batchNorm2d
  else if norm_type = "instance" then .ok .instanceNorm2d
  else if norm_type = "none" then .ok .identity
  else .error ("normalization layer [" ++ norm_type ++ "] is not found")

/-! ### networks.py: `AttackNet` (lines 226-259)

The individual noise layers (`GaussianNoise`, `GaussianBlur`, `Resize`,
`DiffJPEG`) come from `noise_layers.py`, which is not part of the
sources; the spec treats them as black-box differentiable transforms, so
they are fields of the `AttackNet` structure here (opaque batch
transforms fixed at construction time, exactly as `__init__` stores the
layer objects).  Modelled from the spec: `Identity` (also from
`noise_layers.py`) is the identity pass-through. -/

/-- Identity noise layer: `Identity()` from noise_layers.py.
Modelled from the spec: "identity pass-through". -/
def identityLayer : Tensor → Tensor := id

/-- What the Python interpreter raises while running `AttackNet.forward`. -/
inductive PyError where
  /-- A `NotImplementedError` that was raised, carrying its message. -/
  | notImplemented (msg : String)
  /-- An `UnboundLocalError`: a local variable was read before assignment. -/
  | unboundLocal
deriving DecidableEq, Repr

/-- `AttackNet.__init__` (networks.py lines 228-235): stores the noise
type string and the five noise layers. -/
structure AttackNet where
  noise_type : String
  gaussian_noise : Tensor → Tensor
  gaussian_blur : Tensor → Tensor
  resize : Tensor → Tensor
  jpeg : Tensor → Tensor

/-- `AttackNet.forward` (networks.py lines 237-258).  Python slice
`X[a:c]` is `(X.drop a).take (c - a)`; `X[a:]` is `X.drop a`.  In the
final `else` branch the source code builds
`NotImplementedError('noise type [%s] is not found' % self.noise_type)`
but does NOT `raise` it; execution then reaches
`torch.cat((X_identity, X_noise), dim=0)` where the local `X_noise` was
never assigned, so Python raises `UnboundLocalError`.  That behaviour is
modelled by `.error .unboundLocal`. -/
def AttackNet.forward (net : AttackNet) (X : Tensor) : Except PyError Tensor :=
  let b := X.length
  if net.noise_type = "combine" then
    .ok (identityLayer (X.take (b/5)) ++
      net.gaussian_noise ((X.drop (b/5)).take (2*b/5 - b/5)) ++
      net.gaussian_blur ((X.drop (2*b/5)).take (3*b/5 - 2*b/5)) ++
      net.resize ((X.drop (3*b/5)).take (4*b/5 - 3*b/5)) ++
      net.jpeg (X.drop (4*b/5)))
  else
    let X_identity := identityLayer (X.take (2*b/5))
    if net.noise_type = "noise" then
      .ok (X_identity ++ net.gaussian_noise (X.drop (2*b/5)))
    else if net.noise_type = "blur" then
      .ok (X_identity ++ net.gaussian_blur (X.drop (2*b/5)))
    else if net.noise_type = "resize" then
      .ok (X_identity ++ net.resize (X.drop (2*b/5)))
    else if net.noise_type = "jpeg" then
      .ok (X_identity ++ net.jpeg (X.drop (2*b/5)))
    else
      .error .unboundLocal

/-! ### networks.py: `UnetSkipConnectionBlock` topology (lines 76-151)
and `UnetGenerator.__init__` (lines 50-62)

The block tree is modelled as an inductive mirroring the three
construction cases (`outermost` / `innermost` / middle).  Learned
weights are irrelevant to the structural and shape claims, so a block is
identified by its channel parameters and its submodule. -/

/-- The recursive U-Net block tree.  `innermost` has no submodule and
`outermost` is the unique root, exactly as built in
`UnetGenerator.__init__`.  A `middle` block records `use_dropout`
(whether `nn.Dropout(0.5)` is appended, networks.py lines 146-149). -/
inductive UnetSkipConnectionBlock where
  | innermost (outer_nc inner_nc : ℕ)
  | middle (outer_nc inner_nc : ℕ) (submodule : UnetSkipConnectionBlock) (use_dropout : Bool)
  | outermost (outer_nc inner_nc input_nc : ℕ) (submodule : UnetSkipConnectionBlock)
deriving Repr

/-- The `for i in range(num_downs - 5)` loop of `UnetGenerator.__init__`
(networks.py lines 55-57): wrap `blk` in `n` intermediate blocks with
`nhf*8` filters on both sides. -/
def wrapMiddles (nhf : ℕ) (use_dropout : Bool) : ℕ → UnetSkipConnectionBlock → UnetSkipConnectionBlock
  | 0, blk => blk
  | n+1, blk => .middle (nhf*8) (nhf*8) (wrapMiddles nhf use_dropout n blk) use_dropout

/-- The block tree built by `UnetGenerator.__init__` (networks.py lines
53-62): innermost, then `num_downs - 5` constant-width middles (Python
`range` of a negative number is empty, matching truncated `ℕ`
subtraction), then three width-reducing blocks, then the outermost
block. -/
def unetGeneratorModel (input_nc output_nc num_downs nhf : ℕ) (use_dropout : Bool) :
    UnetSkipConnectionBlock :=
  let inner := UnetSkipConnectionBlock.innermost (nhf*8) (nhf*8)
  let mids := wrapMiddles nhf use_dropout (num_downs - 5) inner
  let b1 := UnetSkipConnectionBlock.middle (nhf*4) (nhf*8) mids false
  let b2 := UnetSkipConnectionBlock.middle (nhf*2) (nhf*4) b1 false
  let b3 := UnetSkipConnectionBlock.middle nhf (nhf*2) b2 false
  UnetSkipConnectionBlock.outermost output_nc nhf input_nc b3

namespace UnetSkipConnectionBlock

/-- Total number of blocks in the tree (the tree is a chain, so this is
its depth). -/
def numBlocks : UnetSkipConnectionBlock → ℕ
  | innermost _ _ => 1
  | middle _ _ sub _ => sub.numBlocks + 1
  | outermost _ _ _ sub => sub.numBlocks + 1

/-- Number of innermost blocks in the tree. -/
def countInnermost : UnetSkipConnectionBlock → ℕ
  | innermost _ _ => 1
  | middle _ _ sub _ => sub.countInnermost
  | outermost _ _ _ sub => sub.countInnermost

/-- Number of outermost blocks in the tree. -/
def countOutermost : UnetSkipConnectionBlock → ℕ
  | innermost _ _ => 0
  | middle _ _ sub _ => sub.countOutermost
  | outermost _ _ _ sub => sub.countOutermost + 1

/-- Number of intermediate blocks with constant channel width
(`outer_nc = inner_nc`). -/
def countMiddleConst : UnetSkipConnectionBlock → ℕ
  | innermost _ _ => 0
  | middle o i sub _ => (if o = i then 1 else 0) + sub.countMiddleConst
  | outermost _ _ _ sub => sub.countMiddleConst

/-- Number of intermediate blocks that geometrically halve the channel
width (`inner_nc = 2 * outer_nc`). -/
def countMiddleHalving : UnetSkipConnectionBlock → ℕ
  | innermost _ _ => 0
  | middle o i sub _ => (if i = 2*o then 1 else 0) + sub.countMiddleHalving
  | outermost _ _ _ sub => sub.countMiddleHalving

end UnetSkipConnectionBlock

/-! ### Shape semantics of the U-Net blocks

`nn.Conv2d(cin, cout, kernel_size=4, stride=2, padding=1)` maps a
`[b, cin, h, w]` tensor to `[b, cout, (h+2-4)/2+1, (w+2-4)/2+1]` and
errors unless the input has `cin` channels and `h, w ≥ 2` (output size
must be ≥ 1).  `nn.ConvTranspose2d(cin, cout, kernel_size=4, stride=2,
padding=1)` maps `[b, cin, h, w]` to `[b, cout, (h-1)*2+2, (w-1)*2+2]`
(the PyTorch formula `(h-1)*stride - 2*padding + kernel`).  ReLU /
LeakyReLU / normalization / dropout / Sigmoid / Tanh keep the shape. -/

/-- Output shape of the strided `downconv` (`Conv2d` k=4 s=2 p=1). -/
def convDownShape (cin cout : ℕ) (s : Shape4) : Option Shape4 :=
  if s.c = cin ∧ 2 ≤ s.h ∧ 2 ≤ s.w then
    some ⟨s.b, cout, (s.h + 2 - 4)/2 + 1, (s.w + 2 - 4)/2 + 1⟩
  else none

/-- Output shape of the `upconv` (`ConvTranspose2d` k=4 s=2 p=1);
`(h-1)*2 - 2 + 4` is written `(h-1)*2 + 2` to avoid truncated
subtraction. -/
def convUpShape (cin cout : ℕ) (s : Shape4) : Option Shape4 :=
  if s.c = cin ∧ 1 ≤ s.h ∧ 1 ≤ s.w then
    some ⟨s.b, cout, (s.h - 1)*2 + 2, (s.w - 1)*2 + 2⟩
  else none

/-- Shape of `torch.cat((x, y), dim=1)` (networks.py line 163): all
dimensions except the channel count must agree. -/
def catShapeC (s t : Shape4) : Option Shape4 :=
  if s.b = t.b ∧ s.h = t.h ∧ s.w = t.w then some ⟨s.b, s.c + t.c, s.h, s.w⟩
  else none

/-- Shape semantics of `UnetSkipConnectionBlock.forward` (networks.py
lines 122-151 and 153-163) for the keyless path (`k is None`):
downsample, recurse into the submodule, upsample, and — except for the
outermost block — concatenate the block input channel-wise with the
output (skip connection).  Middle blocks use `Conv2d(outer_nc,
inner_nc)` (since `input_nc=None` defaults to `outer_nc`) and
`ConvTranspose2d(inner_nc*2, outer_nc)`; the innermost block has
`ConvTranspose2d(inner_nc, outer_nc)`; the outermost block has
`Conv2d(input_nc, inner_nc)` and `ConvTranspose2d(inner_nc*2,
outer_nc)` and no skip concatenation. -/
def UnetSkipConnectionBlock.forwardShape : UnetSkipConnectionBlock → Shape4 → Option Shape4
  | .innermost o i, s => do
      let d ← convDownShape o i s
      let u ← convUpShape i o d
      catShapeC s u
  | .middle o i sub _, s => do
      let d ← convDownShape o i s
      let m ← sub.forwardShape d
      let u ← convUpShape (i*2) o m
      catShapeC s u
  | .outermost o i inp sub, s => do
      let d ← convDownShape inp i s
      let m ← sub.forwardShape d
      convUpShape (i*2) o m

/-- Shape semantics of `UnetGenerator.forward` (networks.py lines
71-73) with `k=None`: `factor * model(X)` — scalar multiplication keeps
the shape, so this is the shape of the block tree's output. -/
def unetGeneratorForwardShape (input_nc output_nc num_downs nhf : ℕ) (use_dropout : Bool)
    (s : Shape4) : Option Shape4 :=
  (unetGeneratorModel input_nc output_nc num_downs nhf use_dropout).forwardShape s

/-! ### networks.py: `UnetGenerator` output activation and scaling
(lines 62-73, 122-133) and `RevealNet` output activation (lines
196-199) -/

/-- The output activation of the outermost layer. -/
inductive ActKind where
  | tanh
  | sigmoid
deriving DecidableEq, Repr

/-- The `output_function` dispatch inside `UnetSkipConnectionBlock.__init__`
for the outermost block (networks.py lines 128-133): unknown strings
raise `NotImplementedError` naming the value. -/
def unetBlockActivation (output_function : String) : Except String ActKind :=
  if output_function = "tanh" then .ok .tanh
  else if output_function = "sigmoid" then .ok .sigmoid
  else .error ("activation funciton [" ++ output_function ++ "] is not found")

/-- The `factor` dispatch in `UnetGenerator.__init__` (networks.py lines
64-69): `10/255` for tanh, `1.0` for sigmoid, otherwise
`NotImplementedError` naming the value. -/
def unetFactor (output_function : String) : Except String ℚ :=
  if output_function = "tanh" then .ok (10/255)
  else if output_function = "sigmoid" then .ok 1
  else .error ("activation funciton [" ++ output_function ++ "] is not found")

/-- The data of a constructed `UnetGenerator` needed by its `forward`:
the scaling factor fixed at construction and the underlying model
`self.model` (the block stack, taken here as an opaque tensor
function since its weights are learned). -/
structure UnetGenerator where
  factor : ℚ
  model : Tensor → Tensor

/-- `UnetGenerator.__init__` (networks.py lines 50-69) as far as
`forward` is concerned: line 62 builds the outermost block, whose
constructor dispatches on `output_function` (raising on unknown
strings), then lines 64-69 set `self.factor`. -/
def mkUnetGenerator (model : Tensor → Tensor) (output_function : String) :
    Except String UnetGenerator := do
  let _ ← unetBlockActivation output_function
  let factor ← unetFactor output_function
  .ok ⟨factor, model⟩

/-- `UnetGenerator.forward` (networks.py lines 71-73):
`return self.factor * self.model(X, k)`. -/
def UnetGenerator.forward (g : UnetGenerator) (X : Tensor) : Tensor :=
  smulT g.factor (g.model X)

/-- The `output_function` dispatch in `RevealNet.__init__` (networks.py
lines 196-199): only `'sigmoid'` is supported; anything else raises
`NotImplementedError` naming the value. -/
def revealNetOutput (output_function : String) : Except String ActKind :=
  if output_function = "sigmoid" then .ok .sigmoid
  else .error ("activation funciton [" ++ output_function ++ "] is not found")

/-! ### networks.py: key-tile generation

`UnetSkipConnectionBlock.forward` (lines 153-161, outermost with a key)
and `RevealNet.forward` (lines 210-215) both run

    b, c, h, w = x.size()
    r = self.redundance_size
    ke = self.encoder(k).view(1, c, r, r).repeat(b, 1, h//r, w//r)
    ... torch.cat((x, ke), dim=1) ...

`self.encoder` is `nn.Linear(key_len, redundance_size**2 * input_nc)`,
modelled concretely as an affine map given by a weight matrix (one row
per output feature) and a bias vector. -/

/-- `nn.Linear` application: output feature `i` is `⟨W[i], k⟩ + bias[i]`. -/
def linearApply (W : List (List ℚ)) (bias : List ℚ) (k : List ℚ) : List ℚ :=
  (W.zip bias).map (fun rb => ((rb.1.zip k).map (fun p => p.1 * p.2)).sum + rb.2)

/-- Split `v` into `cnt` consecutive chunks of `size` elements each
(the index arithmetic of a `view` reshape). -/
def splitInto (cnt size : ℕ) (v : List ℚ) : List (List ℚ) :=
  (List.range cnt).map (fun i => (v.drop (i * size)).take size)

/-- The image part of `view(1, c, r, r)`: reshape a flat feature vector
into `c` channels of `r` rows of `r` columns. -/
def viewBody (v : List ℚ) (c r : ℕ) : Image :=
  (splitInto c (r*r) v).map (fun ch => splitInto r r ch)

/-- `view(1, c, r, r)` with its size check: a torch `view` errors unless
the element count matches exactly. -/
def viewKey (v : List ℚ) (c r : ℕ) : Option Image :=
  if v.length = c * (r * r) then some (viewBody v c r) else none

/-- `repeat(1, hq, wq)` on an `[c, r, r]` image: tile each channel `hq`
times along rows and `wq` times along columns, giving `[c, r*hq, r*wq]`
with entry `(i, j)` equal to base entry `(i % r, j % r)`. -/
def tileImage (hq wq : ℕ) (img : Image) : Image :=
  img.map (fun ch =>
    List.flatten (List.replicate hq (ch.map (fun row => List.flatten (List.replicate wq row)))))

/-- `self.encoder(k).view(1, c, r, r).repeat(b, 1, hq, wq)`:
`none` models the torch `view` size error. -/
def makeKe (encOut : List ℚ) (c r b hq wq : ℕ) : Option Tensor :=
  (viewKey encOut c r).map (fun img => List.replicate b (tileImage hq wq img))

/-- The rectangular shape of a tensor, or `none` if it is ragged:
`torch.cat` semantics below only need shapes of genuine (rectangular)
tensors. -/
def shapeOf (t : Tensor) : Option Shape4 :=
  let s := tShape t
  if isShape t s.b s.c s.h s.w then some s else none

/-- `torch.cat((A, B), dim=1)` with its shape check: errors (none)
unless all dimensions except the channel count agree.  This is the
dimension error raised when the key tile does not cover the image. -/
def catDim1Checked (A B : Tensor) : Option Tensor :=
  match shapeOf A, shapeOf B with
  | some sa, some sb =>
      if sa.b = sb.b ∧ sa.h = sb.h ∧ sa.w = sb.w then some (catDim1 A B) else none
  | _, _ => none

/-- The key branch of the outermost `UnetSkipConnectionBlock.forward`
(networks.py lines 157-161): build the key tile from the key `k` via the
linear encoder `(W, bias)` and redundance size `r`, concatenate it onto
`x` channel-wise, and feed the result to `self.model` (the block stack,
opaque here). -/
def unetOutermostKeyForward (model : Tensor → Tensor) (W : List (List ℚ)) (bias : List ℚ)
    (r : ℕ) (x : Tensor) (k : List ℚ) : Option Tensor :=
  let s := tShape x
  (makeKe (linearApply W bias k) s.c r s.b (s.h / r) (s.w / r)).bind
    (fun ke => (catDim1Checked x ke).map model)

/-- The key branch of `RevealNet.forward` (networks.py lines 210-215):
identical key-tile construction and channel-wise concatenation, then the
six-convolution stack `rest` (opaque here). -/
def revealNetKeyForward (rest : Tensor → Tensor) (W : List (List ℚ)) (bias : List ℚ)
    (r : ℕ) (x : Tensor) (k : List ℚ) : Option Tensor :=
  let s := tShape x
  (makeKe (linearApply W bias k) s.c r s.b (s.h / r) (s.w / r)).bind
    (fun ke => (catDim1Checked x ke).map rest)

/-! ### utils/util.py: `forward_pass` (lines 220-275) -/

/-- The fake-key resampling loop of `forward_pass` (util.py lines
237-239): draw `fake_key = draws 0`; while it equals the real key,
redraw.  The random draws are modelled as a stream `draws`; the loop
returns the first draw different from `key`, and it terminates exactly
when such a draw exists (which, for genuinely random draws, happens with
probability one). -/
def sampleFakeKey (key : List Bool) (draws : ℕ → List Bool)
    (h : ∃ n, draws n ≠ key) : List Bool :=
  draws (Nat.find h)

/-- The tuple returned by `forward_pass` (util.py line 275). -/
structure ForwardOut where
  cover : Tensor
  container : Tensor
  secret : Tensor
  rev_secret : Tensor
  rev_secret_ : Tensor
  H_loss : ℚ
  R_loss : ℚ
  R_loss_ : ℚ
  H_diff : ℚ
  R_diff : ℚ
  R_diff_ : ℚ

/-- Mean of the absolute values of all entries (`t.abs().mean()`). -/
def absMeanT (t : Tensor) : ℚ :=
  let flat := ((t.flatten).flatten).flatten
  (flat.map (fun x => |x|)).sum / flat.length

/-- `forward_pass` (util.py lines 220-275).  The networks `Hnet`,
`Rnet`, the loss `criterion`, and the two sampled binary keys enter as
parameters (the keys are produced by the random sampler, see
`sampleFakeKey`; `.cuda()` device moves are identity here; the
`Enet is None` branch is the only implemented one, so `Enet` is
omitted).  The two `assert` statements (shape equality and squareness,
lines 233-235) are modelled as `Except.error`.  `red_key` is
`key.view(1, 1, 1, w).repeat(b, c, h, 1)`: the key vector at every
batch, channel and row position. -/
def forward_pass (Hnet Rnet : Tensor → Tensor) (criterion : Tensor → Tensor → ℚ)
    (cover_dependent : Bool) (secret cover : Tensor) (key fake_key : List ℚ) :
    Except String ForwardOut :=
  if tShape cover = tShape secret then
    let s := tShape cover
    if s.h = s.w then
      let red_key := List.replicate s.b (List.replicate s.c (List.replicate s.h key))
      let red_fake_key := List.replicate s.b (List.replicate s.c (List.replicate s.h fake_key))
      let zeros := zerosLike cover
      let H_input :=
        if cover_dependent then catDim1 cover (catDim1 secret red_key)
        else catDim1 secret red_key
      let H_output := Hnet H_input
      let container := if cover_dependent then H_output else addT H_output cover
      let H_loss := criterion container cover
      let rev_secret := Rnet (catDim1 container red_key)
      let R_loss := criterion rev_secret secret
      let rev_secret_ := Rnet (catDim1 container red_fake_key)
      let R_loss_ := criterion rev_secret_ zeros
      let R_diff_ := absMeanT rev_secret_ * 255
      let H_diff := absMeanT (subT container cover) * 255
      let R_diff := absMeanT (subT rev_secret secret) * 255
      .ok ⟨cover, container, secret, rev_secret, rev_secret_,
           H_loss, R_loss, R_loss_, H_diff, R_diff, R_diff_⟩
    else .error "cover and secret images are expected to be squares"
  else .error "Shape of cover and secret images are expected to be the same!"

/-- The per-step training loss of `train` (util.py lines 323-333):
`loss_sum = H_loss + opt.beta * R_loss + opt.gamma * R_loss_`, the
scalar on which `loss_sum.backward()` is called (line 337). -/
def trainStepLoss (beta gamma : ℚ) (Hnet Rnet : Tensor → Tensor)
    (criterion : Tensor → Tensor → ℚ) (cover_dependent : Bool)
    (secret cover : Tensor) (key fake_key : List ℚ) : Except String ℚ :=
  (forward_pass Hnet Rnet criterion cover_dependent secret cover key fake_key).map
    (fun r => r.H_loss + beta * r.R_loss + gamma * r.R_loss_)

/-! ## Helper lemmas -/

/-- Scaling a tensor by the factor `1.0` returns it unchanged. -/
theorem smulT_one (t : Tensor) : smulT 1 t = t := by
  simp [smulT]

/-! ## Claims -/

/-- C1: unsupported configuration strings.  `get_norm_layer`, the
outermost `UnetSkipConnectionBlock`, the `UnetGenerator` factor dispatch
and `RevealNet` all fail fast with a `NotImplementedError` naming the
offending value, as the claim states — but `AttackNet.forward` does
not: on a `noise_type` outside the supported set (here the concrete
input `'identity'`, which the spec even lists as a configuration value)
the source constructs the `NotImplementedError` without `raise`, and
execution dies later with an `UnboundLocalError` that does not name the
offending value.  This theorem evaluates the embedding at that failing
input and at unsupported strings for the other four sites. -/
theorem attackNet_unknown_noise_type_not_raised :
    AttackNet.forward ⟨"identity", id, id, id, id⟩ [[[[0]]]] = .error PyError.unboundLocal
    ∧ get_norm_layer "spectral" = .error "normalization layer [spectral] is not found"
    ∧ unetBlockActivation "relu" = .error "activation funciton [relu] is not found"
    ∧ unetFactor "relu" = .error "activation funciton [relu] is not found"
    ∧ revealNetOutput "tanh" = .error "activation funciton [tanh] is not found" :=
  ⟨rfl, rfl, rfl, rfl, rfl⟩

/-- C9: `UnetGenerator.forward` scales the model output by the constant
factor fixed at construction: `10/255` when `output_function` is
`'tanh'` and `1.0` when it is `'sigmoid'`; for every input the returned
tensor is the factor times the underlying model's output (and scaling
by `1.0` returns the model output itself). -/
theorem unetGenerator_forward_scaling (model : Tensor → Tensor) (X : Tensor) :
    (mkUnetGenerator model "tanh").map UnetGenerator.factor = .ok (10/255)
    ∧ (mkUnetGenerator model "sigmoid").map UnetGenerator.factor = .ok 1
    ∧ (mkUnetGenerator model "tanh").map (fun g => g.forward X)
        = .ok (smulT (10/255) (model X))
    ∧ (mkUnetGenerator model "sigmoid").map (fun g => g.forward X)
        = .ok (smulT 1 (model X))
    ∧ smulT 1 (model X) = model X :=
  ⟨rfl, rfl, rfl, rfl, smulT_one (model X)⟩

/-- C5: for every training step the backpropagated scalar equals
`hidingLoss + beta * revealLoss + gamma * fakeRevealLoss`, where the
three losses are `criterion(container, cover)`,
`criterion(rev_secret, secret)` and `criterion(rev_secret_, zeros)` with
`zeros` the all-zero tensor of the cover's shape, in both
cover-dependent and cover-independent mode (the two sides error
identically when the shape asserts fail). -/
theorem trainStepLoss_eq (beta gamma : ℚ) (Hnet Rnet : Tensor → Tensor)
    (criterion : Tensor → Tensor → ℚ) (cover_dependent : Bool)
    (secret cover : Tensor) (key fake_key : List ℚ) :
    trainStepLoss beta gamma Hnet Rnet criterion cover_dependent secret cover key fake_key =
      (forward_pass Hnet Rnet criterion cover_dependent secret cover key fake_key).map
        (fun r => criterion r.container cover + beta * criterion r.rev_secret secret
          + gamma * criterion r.rev_secret_ (zerosLike cover)) := by
  unfold trainStepLoss forward_pass
  by_cases h1 : tShape cover = tShape secret
  · by_cases h2 : (tShape cover).h = (tShape cover).w
    · rw [if_pos h1, if_pos h2]; rfl
    · rw [if_pos h1, if_neg h2]; rfl
  · rw [if_neg h1]; rfl

/-- C4: in `forward_pass`, when `cover_dependent` the hiding network
receives `torch.cat((cover, secret, red_key), dim=1)` and the container
is its raw output; otherwise it receives
`torch.cat((secret, red_key), dim=1)` and the container is the output
plus the cover. -/
theorem forward_pass_container_eq (Hnet Rnet : Tensor → Tensor)
    (criterion : Tensor → Tensor → ℚ) (secret cover : Tensor) (key fake_key : List ℚ)
    (h1 : tShape cover = tShape secret) (h2 : (tShape cover).h = (tShape cover).w) :
    ((forward_pass Hnet Rnet criterion true secret cover key fake_key).map ForwardOut.container
        = .ok (Hnet (catDim1 cover (catDim1 secret
            (List.replicate (tShape cover).b (List.replicate (tShape cover).c
              (List.replicate (tShape cover).h key)))))))
    ∧ ((forward_pass Hnet Rnet criterion false secret cover key fake_key).map ForwardOut.container
        = .ok (addT (Hnet (catDim1 secret
            (List.replicate (tShape cover).b (List.replicate (tShape cover).c
              (List.replicate (tShape cover).h key))))) cover)) := by
  constructor <;>
    · unfold forward_pass
      rw [if_pos h1, if_pos h2]
      rfl

/-- Witness for C4 at a concrete `1×1×1×1` batch with `Hnet = id` and a
zero loss. -/
theorem forward_pass_container_eq_witness :
    ((forward_pass id id (fun _ _ => 0) true [[[[0]]]] [[[[0]]]] [1] [0]).map ForwardOut.container
        = .ok (id (catDim1 [[[[0]]]] (catDim1 [[[[0]]]]
            (List.replicate (tShape [[[[0]]]]).b (List.replicate (tShape [[[[0]]]]).c
              (List.replicate (tShape [[[[0]]]]).h [1])))))))
    ∧ ((forward_pass id id (fun _ _ => 0) false [[[[0]]]] [[[[0]]]] [1] [0]).map ForwardOut.container
        = .ok (addT (id (catDim1 [[[[0]]]]
            (List.replicate (tShape [[[[0]]]]).b (List.replicate (tShape [[[[0]]]]).c
              (List.replicate (tShape [[[[0]]]]).h [1]))))) [[[[0]]]])) :=
  forward_pass_container_eq id id (fun _ _ => 0) [[[[0]]]] [[[[0]]]] [1] [0] rfl rfl

/-- C3: the fake-key resampling loop of `forward_pass` returns the first
random draw that differs from the real key, so whenever the random
stream eventually produces a key different from the real one (an event
of probability one for genuine random draws), the loop terminates and
its result is unequal to the real key; all earlier draws equalled the
real key (they were resampled). -/
theorem sampleFakeKey_ne (key : List Bool) (draws : ℕ → List Bool)
    (h : ∃ n, draws n ≠ key) :
    sampleFakeKey key draws h ≠ key ∧ ∀ m < Nat.find h, draws m = key := by
  refine ⟨Nat.find_spec h, fun m hm => ?_⟩
  have := Nat.find_min h hm
  simpa using this

/-- Witness for C3: real key `[true]`, a draw stream whose first draw
collides with the real key and whose second differs. -/
theorem sampleFakeKey_ne_witness :
    sampleFakeKey [true] (fun n => if n = 0 then [true] else [false])
        ⟨1, by decide⟩ ≠ [true]
    ∧ ∀ m < Nat.find (⟨1, by decide⟩ :
        ∃ n, (fun n => if n = 0 then [true] else [false]) n ≠ [true]),
      (fun n => if n = 0 then [true] else [false]) m = [true] :=
  sampleFakeKey_ne [true] (fun n => if n = 0 then [true] else [false]) ⟨1, by decide⟩

/-- C2: `AttackNet.forward` in `'combine'` mode on a batch whose size is
`5*k` partitions it into five equal contiguous slices of `k` images,
transformed in order by identity, Gaussian noise, Gaussian blur, resize
and jpeg, and returns their concatenation, which has the input's batch
size and per-image shape (the noise layers themselves are black boxes
from `noise_layers.py`; that each preserves batch length and per-image
shape is the spec's contract for them and enters as a hypothesis). -/
theorem attackNet_combine_slices (gn gb rs jp : Tensor → Tensor) (X : Tensor) (k c h w : ℕ)
    (hlen : X.length = 5 * k)
    (hX : ∀ img ∈ X, isImgShape img c h w)
    (hgn : ∀ Y : Tensor, (∀ img ∈ Y, isImgShape img c h w) →
      (gn Y).length = Y.length ∧ ∀ img ∈ gn Y, isImgShape img c h w)
    (hgb : ∀ Y : Tensor, (∀ img ∈ Y, isImgShape img c h w) →
      (gb Y).length = Y.length ∧ ∀ img ∈ gb Y, isImgShape img c h w)
    (hrs : ∀ Y : Tensor, (∀ img ∈ Y, isImgShape img c h w) →
      (rs Y).length = Y.length ∧ ∀ img ∈ rs Y, isImgShape img c h w)
    (hjp : ∀ Y : Tensor, (∀ img ∈ Y, isImgShape img c h w) →
      (jp Y).length = Y.length ∧ ∀ img ∈ jp Y, isImgShape img c h w) :
    AttackNet.forward ⟨"combine", gn, gb, rs, jp⟩ X
      = .ok (identityLayer (X.take k) ++ gn ((X.drop k).take k) ++ gb ((X.drop (2*k)).take k)
          ++ rs ((X.drop (3*k)).take k) ++ jp (X.drop (4*k)))
    ∧ (X.take k).length = k ∧ ((X.drop k).take k).length = k
    ∧ ((X.drop (2*k)).take k).length = k ∧ ((X.drop (3*k)).take k).length = k
    ∧ (X.drop (4*k)).length = k
    ∧ (identityLayer (X.take k) ++ gn ((X.drop k).take k) ++ gb ((X.drop (2*k)).take k)
        ++ rs ((X.drop (3*k)).take k) ++ jp (X.drop (4*k))).length = X.length
    ∧ ∀ img ∈ identityLayer (X.take k) ++ gn ((X.drop k).take k) ++ gb ((X.drop (2*k)).take k)
        ++ rs ((X.drop (3*k)).take k) ++ jp (X.drop (4*k)), isImgShape img c h w := by
  have hsub : ∀ (a b : ℕ) (img : Image), img ∈ (X.drop a).take b → img ∈ X :=
    fun a b img hi => List.mem_of_mem_drop (List.mem_of_mem_take hi)
  have hdropmem : ∀ (a : ℕ) (img : Image), img ∈ X.drop a → img ∈ X :=
    fun a img hi => List.mem_of_mem_drop hi
  have hgn' := hgn ((X.drop k).take k) (fun img hi => hX img (hsub _ _ img hi))
  have hgb' := hgb ((X.drop (2*k)).take k) (fun img hi => hX img (hsub _ _ img hi))
  have hrs' := hrs ((X.drop (3*k)).take k) (fun img hi => hX img (hsub _ _ img hi))
  have hjp' := hjp (X.drop (4*k)) (fun img hi => hX img (hdropmem _ img hi))
  refine ⟨?_, ?_, ?_, ?_, ?_, ?_, ?_, ?_⟩
  · unfold AttackNet.forward
    rw [if_pos rfl]
    have e1 : X.length / 5 = k := by omega
    have e2 : 2 * X.length / 5 = 2 * k := by omega
    have e3 : 3 * X.length / 5 = 3 * k := by omega
    have e4 : 4 * X.length / 5 = 4 * k := by omega
    rw [e1, e2, e3, e4]
    have f2 : 2 * k - k = k := by omega
    have f3 : 3 * k - 2 * k = k := by omega
    have f4 : 4 * k - 3 * k = k := by omega
    rw [f2, f3, f4]
  · simp [List.length_take]; omega
  · simp [List.length_take, List.length_drop]; omega
  · simp [List.length_take, List.length_drop]; omega
  · simp [List.length_take, List.length_drop]; omega
  · simp [List.length_drop]; omega
  · simp only [List.length_append, identityLayer, id, hgn'.1, hgb'.1, hrs'.1, hjp'.1,
      List.length_take, List.length_drop]
    omega
  · intro img hi
    simp only [List.mem_append, identityLayer, id] at hi
    rcases hi with ((((hi | hi) | hi) | hi) | hi)
    · exact hX img (List.mem_of_mem_take hi)
    · exact hgn'.2 img hi
    · exact hgb'.2 img hi
    · exact hrs'.2 img hi
    · exact hjp'.2 img hi

/-- Witness for C2: a batch of five `1×1×1` images with identity
transforms. -/
theorem attackNet_combine_slices_witness :
    AttackNet.forward ⟨"combine", id, id, id, id⟩ (List.replicate 5 [[[0]]])
      = .ok (identityLayer ((List.replicate 5 [[[0]]]).take 1)
          ++ id (((List.replicate 5 [[[0]]]).drop 1).take 1)
          ++ id (((List.replicate 5 [[[0]]]).drop (2*1)).take 1)
          ++ id (((List.replicate 5 [[[0]]]).drop (3*1)).take 1)
          ++ id ((List.replicate 5 [[[0]]]).drop (4*1)))
    ∧ ((List.replicate 5 [[[0]]]).take 1).length = 1
    ∧ (((List.replicate 5 [[[0]]]).drop 1).take 1).length = 1
    ∧ (((List.replicate 5 [[[0]]]).drop (2*1)).take 1).length = 1
    ∧ (((List.replicate 5 [[[0]]]).drop (3*1)).take 1).length = 1
    ∧ ((List.replicate 5 [[[0]]]).drop (4*1)).length = 1
    ∧ (identityLayer ((List.replicate 5 [[[0]]]).take 1)
        ++ id (((List.replicate 5 [[[0]]]).drop 1).take 1)
        ++ id (((List.replicate 5 [[[0]]]).drop (2*1)).take 1)
        ++ id (((List.replicate 5 [[[0]]]).drop (3*1)).take 1)
        ++ id ((List.replicate 5 [[[0]]]).drop (4*1))).length
        = (List.replicate 5 [[[0]]]).length
    ∧ ∀ img ∈ identityLayer ((List.replicate 5 [[[0]]]).take 1)
        ++ id (((List.replicate 5 [[[0]]]).drop 1).take 1)
        ++ id (((List.replicate 5 [[[0]]]).drop (2*1)).take 1)
        ++ id (((List.replicate 5 [[[0]]]).drop (3*1)).take 1)
        ++ id ((List.replicate 5 [[[0]]]).drop (4*1)), isImgShape img 1 1 1 :=
  attackNet_combine_slices id id id id (List.replicate 5 [[[0]]]) 1 1 1 1
    (by decide) (by decide)
    (fun Y hY => ⟨rfl, hY⟩) (fun Y hY => ⟨rfl, hY⟩)
    (fun Y hY => ⟨rfl, hY⟩) (fun Y hY => ⟨rfl, hY⟩)

/-- C10 (amended): `AttackNet.forward` in a single noise mode applies the
identity to exactly the first `⌊2b/5⌋` images and the selected transform
to the remaining `b - ⌊2b/5⌋`, returning their concatenation in that
order with total batch size `b` (given the spec's contract that the
black-box noise layer preserves batch length); for every nonempty batch
the two slices have different sizes.  (At `b = 0` both slices are empty
and therefore equal, which is the one correction to the claim.) -/
theorem attackNet_single_mode_slices (gn gb rs jp : Tensor → Tensor) (X : Tensor)
    (hgn : ∀ Y : Tensor, (gn Y).length = Y.length)
    (hgb : ∀ Y : Tensor, (gb Y).length = Y.length)
    (hrs : ∀ Y : Tensor, (rs Y).length = Y.length)
    (hjp : ∀ Y : Tensor, (jp Y).length = Y.length) :
    AttackNet.forward ⟨"noise", gn, gb, rs, jp⟩ X
      = .ok (identityLayer (X.take (2*X.length/5)) ++ gn (X.drop (2*X.length/5)))
    ∧ AttackNet.forward ⟨"blur", gn, gb, rs, jp⟩ X
      = .ok (identityLayer (X.take (2*X.length/5)) ++ gb (X.drop (2*X.length/5)))
    ∧ AttackNet.forward ⟨"resize", gn, gb, rs, jp⟩ X
      = .ok (identityLayer (X.take (2*X.length/5)) ++ rs (X.drop (2*X.length/5)))
    ∧ AttackNet.forward ⟨"jpeg", gn, gb, rs, jp⟩ X
      = .ok (identityLayer (X.take (2*X.length/5)) ++ jp (X.drop (2*X.length/5)))
    ∧ (X.take (2*X.length/5)).length = 2*X.length/5
    ∧ (X.drop (2*X.length/5)).length = X.length - 2*X.length/5
    ∧ (identityLayer (X.take (2*X.length/5)) ++ gn (X.drop (2*X.length/5))).length = X.length
    ∧ (identityLayer (X.take (2*X.length/5)) ++ gb (X.drop (2*X.length/5))).length = X.length
    ∧ (identityLayer (X.take (2*X.length/5)) ++ rs (X.drop (2*X.length/5))).length = X.length
    ∧ (identityLayer (X.take (2*X.length/5)) ++ jp (X.drop (2*X.length/5))).length = X.length
    ∧ (1 ≤ X.length → 2*X.length/5 ≠ X.length - 2*X.length/5) := by
  refine ⟨rfl, rfl, rfl, rfl, ?_, ?_, ?_, ?_, ?_, ?_, ?_⟩
  · simp [List.length_take]; omega
  · simp [List.length_drop]
  · simp only [List.length_append, identityLayer, id, hgn, List.length_take, List.length_drop]
    omega
  · simp only [List.length_append, identityLayer, id, hgb, List.length_take, List.length_drop]
    omega
  · simp only [List.length_append, identityLayer, id, hrs, List.length_take, List.length_drop]
    omega
  · simp only [List.length_append, identityLayer, id, hjp, List.length_take, List.length_drop]
    omega
  · intro hb
    omega

/-- Witness for C10's theorem: a single-image batch with identity
transforms; the identity slice is empty and the noise slice is the whole
batch. -/
theorem attackNet_single_mode_slices_witness :
    AttackNet.forward ⟨"noise", id, id, id, id⟩ [[[[0]]]]
      = .ok (identityLayer (([[[[0]]]] : Tensor).take (2*([[[[0]]]] : Tensor).length/5))
          ++ id (([[[[0]]]] : Tensor).drop (2*([[[[0]]]] : Tensor).length/5)))
    ∧ AttackNet.forward ⟨"blur", id, id, id, id⟩ [[[[0]]]]
      = .ok (identityLayer (([[[[0]]]] : Tensor).take (2*([[[[0]]]] : Tensor).length/5))
          ++ id (([[[[0]]]] : Tensor).drop (2*([[[[0]]]] : Tensor).length/5)))
    ∧ AttackNet.forward ⟨"resize", id, id, id, id⟩ [[[[0]]]]
      = .ok (identityLayer (([[[[0]]]] : Tensor).take (2*([[[[0]]]] : Tensor).length/5))
          ++ id (([[[[0]]]] : Tensor).drop (2*([[[[0]]]] : Tensor).length/5)))
    ∧ AttackNet.forward ⟨"jpeg", id, id, id, id⟩ [[[[0]]]]
      = .ok (identityLayer (([[[[0]]]] : Tensor).take (2*([[[[0]]]] : Tensor).length/5))
          ++ id (([[[[0]]]] : Tensor).drop (2*([[[[0]]]] : Tensor).length/5)))
    ∧ (([[[[0]]]] : Tensor).take (2*([[[[0]]]] : Tensor).length/5)).length
        = 2*([[[[0]]]] : Tensor).length/5
    ∧ (([[[[0]]]] : Tensor).drop (2*([[[[0]]]] : Tensor).length/5)).length
        = ([[[[0]]]] : Tensor).length - 2*([[[[0]]]] : Tensor).length/5
    ∧ (identityLayer (([[[[0]]]] : Tensor).take (2*([[[[0]]]] : Tensor).length/5))
        ++ id (([[[[0]]]] : Tensor).drop (2*([[[[0]]]] : Tensor).length/5))).length
        = ([[[[0]]]] : Tensor).length
    ∧ (identityLayer (([[[[0]]]] : Tensor).take (2*([[[[0]]]] : Tensor).length/5))
        ++ id (([[[[0]]]] : Tensor).drop (2*([[[[0]]]] : Tensor).length/5))).length
        = ([[[[0]]]] : Tensor).length
    ∧ (identityLayer (([[[[0]]]] : Tensor).take (2*([[[[0]]]] : Tensor).length/5))
        ++ id (([[[[0]]]] : Tensor).drop (2*([[[[0]]]] : Tensor).length/5))).length
        = ([[[[0]]]] : Tensor).length
    ∧ (identityLayer (([[[[0]]]] : Tensor).take (2*([[[[0]]]] : Tensor).length/5))
        ++ id (([[[[0]]]] : Tensor).drop (2*([[[[0]]]] : Tensor).length/5))).length
        = ([[[[0]]]] : Tensor).length
    ∧ (1 ≤ ([[[[0]]]] : Tensor).length
        → 2*([[[[0]]]] : Tensor).length/5
          ≠ ([[[[0]]]] : Tensor).length - 2*([[[[0]]]] : Tensor).length/5) :=
  attackNet_single_mode_slices id id id id [[[[0]]]]
    (fun _ => rfl) (fun _ => rfl) (fun _ => rfl) (fun _ => rfl)

/-- Counterexample for C10 as stated: on the empty batch (`b = 0`, which
divides into slices of sizes `⌊2b/5⌋ = 0` and `b - ⌊2b/5⌋ = 0`) the two
slices are equal, so "the two slices are therefore not equal halves"
does not hold for every batch. -/
theorem attackNet_single_mode_empty_slices_equal :
    AttackNet.forward ⟨"noise", id, id, id, id⟩ ([] : Tensor) = .ok []
    ∧ 2 * ([] : Tensor).length / 5 = ([] : Tensor).length - 2 * ([] : Tensor).length / 5 :=
  ⟨rfl, rfl⟩

/-- `wrapMiddles` adds `n` blocks to the chain. -/
theorem wrapMiddles_numBlocks (nhf : ℕ) (d : Bool) (n : ℕ) (blk : UnetSkipConnectionBlock) :
    (wrapMiddles nhf d n blk).numBlocks = blk.numBlocks + n := by
  induction n with
  | zero => rfl
  | succ m ih => simp [wrapMiddles, UnetSkipConnectionBlock.numBlocks, ih]; omega

/-- `wrapMiddles` adds no innermost block. -/
theorem wrapMiddles_countInnermost (nhf : ℕ) (d : Bool) (n : ℕ)
    (blk : UnetSkipConnectionBlock) :
    (wrapMiddles nhf d n blk).countInnermost = blk.countInnermost := by
  induction n with
  | zero => rfl
  | succ m ih => simp [wrapMiddles, UnetSkipConnectionBlock.countInnermost, ih]

/-- `wrapMiddles` adds no outermost block. -/
theorem wrapMiddles_countOutermost (nhf : ℕ) (d : Bool) (n : ℕ)
    (blk : UnetSkipConnectionBlock) :
    (wrapMiddles nhf d n blk).countOutermost = blk.countOutermost := by
  induction n with
  | zero => rfl
  | succ m ih => simp [wrapMiddles, UnetSkipConnectionBlock.countOutermost, ih]

/-- `wrapMiddles` adds `n` constant-width intermediate blocks
(`nhf*8 → nhf*8`). -/
theorem wrapMiddles_countMiddleConst (nhf : ℕ) (d : Bool) (n : ℕ)
    (blk : UnetSkipConnectionBlock) :
    (wrapMiddles nhf d n blk).countMiddleConst = blk.countMiddleConst + n := by
  induction n with
  | zero => rfl
  | succ m ih =>
    show (if nhf*8 = nhf*8 then 1 else 0)
        + (wrapMiddles nhf d m blk).countMiddleConst = blk.countMiddleConst + (m+1)
    rw [if_pos rfl, ih]
    omega

/-- For `nhf ≥ 1` the constant-width blocks added by `wrapMiddles` are
not halving blocks. -/
theorem wrapMiddles_countMiddleHalving (nhf : ℕ) (hnhf : 1 ≤ nhf) (d : Bool) (n : ℕ)
    (blk : UnetSkipConnectionBlock) :
    (wrapMiddles nhf d n blk).countMiddleHalving = blk.countMiddleHalving := by
  induction n with
  | zero => rfl
  | succ m ih =>
    show (if nhf*8 = 2*(nhf*8) then 1 else 0)
        + (wrapMiddles nhf d m blk).countMiddleHalving = blk.countMiddleHalving
    rw [if_neg (by omega), ih]
    omega

/-- C8 (amended): for `num_downs ≥ 5` and `nhf ≥ 1`, the block tree built
by `UnetGenerator.__init__` has exactly one innermost block, exactly one
outermost block, `num_downs - 5` constant-width intermediate blocks,
three channel-halving intermediate blocks, and total depth `num_downs`.
(For `num_downs < 5` the loop body runs zero times and the depth is 5,
not `num_downs`; for `nhf = 0` all widths collapse to zero and the
constant/halving classification degenerates.) -/
theorem unetGenerator_block_structure (input_nc output_nc num_downs nhf : ℕ)
    (use_dropout : Bool) (hnd : 5 ≤ num_downs) (hnhf : 1 ≤ nhf) :
    (unetGeneratorModel input_nc output_nc num_downs nhf use_dropout).countInnermost = 1
    ∧ (unetGeneratorModel input_nc output_nc num_downs nhf use_dropout).countOutermost = 1
    ∧ (unetGeneratorModel input_nc output_nc num_downs nhf use_dropout).countMiddleConst
        = num_downs - 5
    ∧ (unetGeneratorModel input_nc output_nc num_downs nhf use_dropout).countMiddleHalving = 3
    ∧ (unetGeneratorModel input_nc output_nc num_downs nhf use_dropout).numBlocks
        = num_downs := by
  unfold unetGeneratorModel
  refine ⟨?_, ?_, ?_, ?_, ?_⟩
  · simp [UnetSkipConnectionBlock.countInnermost, wrapMiddles_countInnermost]
  · simp [UnetSkipConnectionBlock.countOutermost, wrapMiddles_countOutermost]
  · simp only [UnetSkipConnectionBlock.countMiddleConst, wrapMiddles_countMiddleConst]
    rw [if_neg (by omega), if_neg (by omega), if_neg (by omega)]
    simp
  · show (if nhf*2 = 2*nhf then 1 else 0) + ((if nhf*4 = 2*(nhf*2) then 1 else 0)
        + ((if nhf*8 = 2*(nhf*4) then 1 else 0)
          + (wrapMiddles nhf use_dropout (num_downs - 5)
              (UnetSkipConnectionBlock.innermost (nhf*8) (nhf*8))).countMiddleHalving)) = 3
    rw [if_pos (by omega), if_pos (by omega), if_pos (by omega),
      wrapMiddles_countMiddleHalving nhf hnhf]
    rfl
  · simp only [UnetSkipConnectionBlock.numBlocks, wrapMiddles_numBlocks]
    omega

/-- Witness for C8 at `num_downs = 7`, `nhf = 64` (the source defaults). -/
theorem unetGenerator_block_structure_witness :
    (unetGeneratorModel 3 3 7 64 false).countInnermost = 1
    ∧ (unetGeneratorModel 3 3 7 64 false).countOutermost = 1
    ∧ (unetGeneratorModel 3 3 7 64 false).countMiddleConst = 7 - 5
    ∧ (unetGeneratorModel 3 3 7 64 false).countMiddleHalving = 3
    ∧ (unetGeneratorModel 3 3 7 64 false).numBlocks = 7 :=
  unetGenerator_block_structure 3 3 7 64 false (by decide) (by decide)

/-- Counterexample for C8 as stated: with `num_downs = 3` the generator
still has 5 blocks (the intermediate loop runs zero times, it cannot run
a negative number of times), so the depth does not equal `num_downs`;
and with `nhf = 0` all five intermediate blocks count as "halving"
(`0 = 2·0`), not three. -/
theorem unetGenerator_block_structure_counterexample :
    (unetGeneratorModel 3 3 3 64 false).numBlocks = 5
    ∧ (unetGeneratorModel 3 3 3 64 false).numBlocks ≠ 3
    ∧ (unetGeneratorModel 3 3 7 0 false).countMiddleHalving = 5
    ∧ (unetGeneratorModel 3 3 7 0 false).countMiddleHalving ≠ 3 := by
  refine ⟨by decide, by decide, by decide, by decide⟩

/-- Evaluation of the downsampling convolution shape on a matching
input. -/
theorem convDownShape_eval (cin cout b h w : ℕ) (hh : 2 ≤ h) (hw : 2 ≤ w) :
    convDownShape cin cout ⟨b, cin, h, w⟩ = some ⟨b, cout, (h+2-4)/2+1, (w+2-4)/2+1⟩ := by
  unfold convDownShape
  rw [if_pos ⟨rfl, hh, hw⟩]

/-- Evaluation of the upsampling transposed-convolution shape on a
matching input. -/
theorem convUpShape_eval (cin cout b h w : ℕ) (hh : 1 ≤ h) (hw : 1 ≤ w) :
    convUpShape cin cout ⟨b, cin, h, w⟩ = some ⟨b, cout, (h-1)*2+2, (w-1)*2+2⟩ := by
  unfold convUpShape
  rw [if_pos ⟨rfl, hh, hw⟩]

/-- Evaluation of the skip-connection concatenation shape on matching
spatial dimensions. -/
theorem catShapeC_eval (b c1 c2 h w : ℕ) :
    catShapeC ⟨b, c1, h, w⟩ ⟨b, c2, h, w⟩ = some ⟨b, c1+c2, h, w⟩ := by
  unfold catShapeC
  rw [if_pos ⟨rfl, rfl, rfl⟩]

/-- The innermost block halves and restores even spatial dimensions and
doubles its channel count via the skip concatenation. -/
theorem innermost_forwardShape (o i b h w : ℕ) (hh : 2 ≤ h) (hw : 2 ≤ w)
    (hhe : h % 2 = 0) (hwe : w % 2 = 0) :
    (UnetSkipConnectionBlock.innermost o i).forwardShape ⟨b, o, h, w⟩
      = some ⟨b, o*2, h, w⟩ := by
  unfold UnetSkipConnectionBlock.forwardShape
  rw [convDownShape_eval o i b h w hh hw]
  simp only [Option.bind_eq_bind, Option.some_bind]
  rw [show (h+2-4)/2+1 = h/2 by omega, show (w+2-4)/2+1 = w/2 by omega,
    convUpShape_eval i o b (h/2) (w/2) (by omega) (by omega)]
  simp only [Option.bind_eq_bind, Option.some_bind]
  rw [show (h/2-1)*2+2 = h by omega, show (w/2-1)*2+2 = w by omega, catShapeC_eval]
  rw [show o + o = o*2 by omega]

/-- A middle block halves the even spatial dimensions, feeds its
submodule, upsamples back, and doubles its channel count via the skip
concatenation, provided the submodule itself preserves the halved shape
while doubling channels. -/
theorem middle_forwardShape (o i : ℕ) (sub : UnetSkipConnectionBlock) (d : Bool)
    (b h w : ℕ) (hh : 2 ≤ h) (hw : 2 ≤ w) (hhe : h % 2 = 0) (hwe : w % 2 = 0)
    (hsub : sub.forwardShape ⟨b, i, h/2, w/2⟩ = some ⟨b, i*2, h/2, w/2⟩) :
    (UnetSkipConnectionBlock.middle o i sub d).forwardShape ⟨b, o, h, w⟩
      = some ⟨b, o*2, h, w⟩ := by
  unfold UnetSkipConnectionBlock.forwardShape
  rw [convDownShape_eval o i b h w hh hw]
  simp only [Option.bind_eq_bind, Option.some_bind]
  rw [show (h+2-4)/2+1 = h/2 by omega, show (w+2-4)/2+1 = w/2 by omega, hsub]
  simp only [Option.bind_eq_bind, Option.some_bind]
  rw [convUpShape_eval (i*2) o b (h/2) (w/2) (by omega) (by omega)]
  simp only [Option.bind_eq_bind, Option.some_bind]
  rw [show (h/2-1)*2+2 = h by omega, show (w/2-1)*2+2 = w by omega, catShapeC_eval]
  rw [show o + o = o*2 by omega]

/-- The `nhf*8`-wide intermediate chain of `n` blocks over the innermost
block preserves a spatial extent divisible by `2^(n+1)` and doubles the
channel count. -/
theorem wrapMiddles_forwardShape (nhf : ℕ) (d : Bool) :
    ∀ (n b m1 m2 : ℕ), 1 ≤ m1 → 1 ≤ m2 →
    (wrapMiddles nhf d n (UnetSkipConnectionBlock.innermost (nhf*8) (nhf*8))).forwardShape
        ⟨b, nhf*8, 2^(n+1)*m1, 2^(n+1)*m2⟩
      = some ⟨b, (nhf*8)*2, 2^(n+1)*m1, 2^(n+1)*m2⟩ := by
  intro n
  induction n with
  | zero =>
    intro b m1 m2 h1 h2
    rw [show (2:ℕ)^(0+1)*m1 = 2*m1 by norm_num, show (2:ℕ)^(0+1)*m2 = 2*m2 by norm_num]
    exact innermost_forwardShape (nhf*8) (nhf*8) b (2*m1) (2*m2)
      (by omega) (by omega) (by omega) (by omega)
  | succ k ih =>
    intro b m1 m2 h1 h2
    have hp : (1:ℕ) ≤ 2^(k+1) := Nat.one_le_two_pow
    have ht1 : 1 ≤ 2^(k+1)*m1 := by
      calc (1:ℕ) = 1*1 := rfl
        _ ≤ 2^(k+1)*m1 := Nat.mul_le_mul hp h1
    have ht2 : 1 ≤ 2^(k+1)*m2 := by
      calc (1:ℕ) = 1*1 := rfl
        _ ≤ 2^(k+1)*m2 := Nat.mul_le_mul hp h2
    have e1 : (2:ℕ)^(k+1+1)*m1 = 2*(2^(k+1)*m1) := by ring
    have e2 : (2:ℕ)^(k+1+1)*m2 = 2*(2^(k+1)*m2) := by ring
    show (UnetSkipConnectionBlock.middle (nhf*8) (nhf*8)
        (wrapMiddles nhf d k (UnetSkipConnectionBlock.innermost (nhf*8) (nhf*8)))
        d).forwardShape ⟨b, nhf*8, 2^(k+1+1)*m1, 2^(k+1+1)*m2⟩ = _
    apply middle_forwardShape
    · rw [e1]; omega
    · rw [e2]; omega
    · rw [e1]; omega
    · rw [e2]; omega
    · rw [show (2:ℕ)^(k+1+1)*m1/2 = 2^(k+1)*m1 by rw [e1]; omega,
        show (2:ℕ)^(k+1+1)*m2/2 = 2^(k+1)*m2 by rw [e2]; omega]
      exact ih b m1 m2 h1 h2

/-- C6 (amended): for `num_downs ≥ 5` and a positive square spatial
extent `H = 2^num_downs * m` (i.e. `H` divisible by `2^num_downs` and
`H ≥ 2^num_downs`), the generator's output shape equals the input shape
with the configured output channel count: `[B, input_nc, H, H] ↦
[B, output_nc, H, H]`. -/
theorem unetGenerator_shape_roundtrip (input_nc output_nc num_downs nhf : ℕ)
    (use_dropout : Bool) (B H m : ℕ) (hnd : 5 ≤ num_downs) (hm : 1 ≤ m)
    (hH : H = 2^num_downs * m) :
    unetGeneratorForwardShape input_nc output_nc num_downs nhf use_dropout
        ⟨B, input_nc, H, H⟩
      = some ⟨B, output_nc, H, H⟩ := by
  obtain ⟨du, rfl⟩ : ∃ du, num_downs = du + 5 := ⟨num_downs - 5, by omega⟩
  have hp : (1:ℕ) ≤ 2^du := Nat.one_le_two_pow
  have hK1 : 1 ≤ 2^du*m := by
    calc (1:ℕ) = 1*1 := rfl
      _ ≤ 2^du*m := Nat.mul_le_mul hp hm
  have h32 : H = 32*(2^du*m) := by rw [hH, pow_add]; ring
  set K := 2^du*m with hK
  have hchain : (2:ℕ)^(du+1)*m = 2*K := by rw [hK, pow_add]; ring
  have hb1 : (UnetSkipConnectionBlock.middle (nhf*4) (nhf*8)
      (wrapMiddles nhf use_dropout (du+5-5)
        (UnetSkipConnectionBlock.innermost (nhf*8) (nhf*8))) false).forwardShape
      ⟨B, nhf*4, 4*K, 4*K⟩ = some ⟨B, (nhf*4)*2, 4*K, 4*K⟩ := by
    apply middle_forwardShape (nhf*4) (nhf*8) _ false B (4*K) (4*K)
      (by omega) (by omega) (by omega) (by omega)
    rw [show 4*K/2 = 2*K by omega, show (du+5-5) = du by omega, ← hchain]
    exact wrapMiddles_forwardShape nhf use_dropout du B m m hm hm
  have hb2 : (UnetSkipConnectionBlock.middle (nhf*2) (nhf*4)
      (UnetSkipConnectionBlock.middle (nhf*4) (nhf*8)
        (wrapMiddles nhf use_dropout (du+5-5)
          (UnetSkipConnectionBlock.innermost (nhf*8) (nhf*8))) false) false).forwardShape
      ⟨B, nhf*2, 8*K, 8*K⟩ = some ⟨B, (nhf*2)*2, 8*K, 8*K⟩ := by
    apply middle_forwardShape (nhf*2) (nhf*4) _ false B (8*K) (8*K)
      (by omega) (by omega) (by omega) (by omega)
    rw [show 8*K/2 = 4*K by omega]
    exact hb1
  have hb3 : (UnetSkipConnectionBlock.middle nhf (nhf*2)
      (UnetSkipConnectionBlock.middle (nhf*2) (nhf*4)
        (UnetSkipConnectionBlock.middle (nhf*4) (nhf*8)
          (wrapMiddles nhf use_dropout (du+5-5)
            (UnetSkipConnectionBlock.innermost (nhf*8) (nhf*8))) false) false)
      false).forwardShape
      ⟨B, nhf, 16*K, 16*K⟩ = some ⟨B, nhf*2, 16*K, 16*K⟩ := by
    apply middle_forwardShape nhf (nhf*2) _ false B (16*K) (16*K)
      (by omega) (by omega) (by omega) (by omega)
    rw [show 16*K/2 = 8*K by omega]
    exact hb2
  unfold unetGeneratorForwardShape unetGeneratorModel
  show (UnetSkipConnectionBlock.outermost output_nc nhf input_nc _).forwardShape
      ⟨B, input_nc, H, H⟩ = _
  unfold UnetSkipConnectionBlock.forwardShape
  rw [h32, convDownShape_eval input_nc nhf B (32*K) (32*K) (by omega) (by omega)]
  simp only [Option.bind_eq_bind, Option.some_bind]
  rw [show (32*K+2-4)/2+1 = 16*K by omega, hb3]
  simp only [Option.bind_eq_bind, Option.some_bind]
  rw [convUpShape_eval (nhf*2) output_nc B (16*K) (16*K) (by omega) (by omega)]
  rw [show (16*K-1)*2+2 = 32*K by omega]

/-- Witness for C6 at the smallest depth: `num_downs = 5`, `H = 32`. -/
theorem unetGenerator_shape_roundtrip_witness :
    unetGeneratorForwardShape 1 1 5 1 false ⟨1, 1, 32, 32⟩ = some ⟨1, 1, 32, 32⟩ :=
  unetGenerator_shape_roundtrip 1 1 5 1 false 1 32 1 (by decide) (by decide) (by norm_num)

/-- Counterexample for C6 as stated: with `num_downs = 3` the generator
still downsamples five times, so an `8×8` input (`H` divisible by
`2^3`) reaches a `1×1` bottleneck one level early and the next
convolution is a shape error, not a same-shape output; and with the
degenerate `H = 0` (divisible by anything) the first convolution
already errors. -/
theorem unetGenerator_shape_roundtrip_counterexample :
    unetGeneratorForwardShape 3 3 3 1 false ⟨1, 3, 8, 8⟩ ≠ some ⟨1, 3, 8, 8⟩
    ∧ unetGeneratorForwardShape 3 3 7 1 false ⟨1, 3, 0, 0⟩ ≠ some ⟨1, 3, 0, 0⟩ := by
  refine ⟨by decide, by decide⟩

/-- Length of a flattened replication. -/
theorem length_flatten_replicate {α : Type} (n : ℕ) (l : List α) :
    (List.flatten (List.replicate n l)).length = n * l.length := by
  induction n with
  | zero => simp
  | succ m ih => simp [List.replicate_succ, ih]; ring

/-- Members of a flattened replication are members of the replicated
list. -/
theorem mem_flatten_replicate {α : Type} {x : α} {n : ℕ} {l : List α}
    (hx : x ∈ List.flatten (List.replicate n l)) : x ∈ l := by
  rw [List.mem_flatten] at hx
  obtain ⟨l', hl', hxl⟩ := hx
  rwa [List.eq_of_mem_replicate hl'] at hxl

/-- `splitInto` produces `cnt` chunks. -/
theorem splitInto_length (cnt size : ℕ) (v : List ℚ) :
    (splitInto cnt size v).length = cnt := by
  simp [splitInto]

/-- On a vector of exactly `cnt * size` elements every chunk has `size`
elements. -/
theorem splitInto_mem_length (cnt size : ℕ) (v : List ℚ) (hv : v.length = cnt * size) :
    ∀ ch ∈ splitInto cnt size v, ch.length = size := by
  intro ch hch
  simp only [splitInto, List.mem_map, List.mem_range] at hch
  obtain ⟨i, hi, rfl⟩ := hch
  have hle : i*size + size ≤ cnt*size := by
    calc i*size + size = (i+1)*size := by ring
      _ ≤ cnt*size := Nat.mul_le_mul_right size (by omega)
  simp only [List.length_take, List.length_drop, hv]
  omega

/-- The reshape `view(1, c, r, r)` of a `c*r*r`-element feature vector
is a `[c, r, r]` image (the claim's `[1, C, r, r]` tensor, dropping the
unit batch dimension). -/
theorem viewBody_isImgShape (v : List ℚ) (c r : ℕ) (hv : v.length = c*(r*r)) :
    isImgShape (viewBody v c r) c r r := by
  constructor
  · simp [viewBody, splitInto]
  · intro ch hch
    simp only [viewBody, List.mem_map] at hch
    obtain ⟨ch0, hch0, rfl⟩ := hch
    have hch0len : ch0.length = r*r := splitInto_mem_length c (r*r) v hv ch0 hch0
    constructor
    · simp [splitInto]
    · intro row hrow
      exact splitInto_mem_length r r ch0 (by rw [hch0len]) row hrow

/-- The linear encoder output has `min |W| |bias|` features; with the
`nn.Linear(key_len, r²·c)` dimensions this is `c*r²`. -/
theorem linearApply_length (W : List (List ℚ)) (bias : List ℚ) (k : List ℚ) :
    (linearApply W bias k).length = min W.length bias.length := by
  simp [linearApply]

/-- Tiling an `[c, r, r]` image `(hq, wq)` times gives an
`[c, hq*r, wq*r]` image. -/
theorem tileImage_imgShape (hq wq c r : ℕ) (img : Image) (himg : isImgShape img c r r) :
    isImgShape (tileImage hq wq img) c (hq*r) (wq*r) := by
  obtain ⟨hlen, hch⟩ := himg
  constructor
  · simp [tileImage, hlen]
  · intro ch' hch'
    simp only [tileImage, List.mem_map] at hch'
    obtain ⟨ch, hchmem, rfl⟩ := hch'
    obtain ⟨hchlen, hrow⟩ := hch ch hchmem
    constructor
    · rw [length_flatten_replicate]
      simp [hchlen]
    · intro row hrowmem
      have hmem := mem_flatten_replicate hrowmem
      simp only [List.mem_map] at hmem
      obtain ⟨row0, hr0, rfl⟩ := hmem
      rw [length_flatten_replicate, hrow row0 hr0]

/-- The repeated key tile `ke` is a rectangular `[b, c, hq*r, wq*r]`
tensor. -/
theorem ke_isShape (b c r hq wq : ℕ) (img : Image) (himg : isImgShape img c r r) :
    isShape (List.replicate b (tileImage hq wq img)) b c (hq*r) (wq*r) := by
  refine ⟨by simp, fun im hm => ?_⟩
  rw [List.eq_of_mem_replicate hm]
  exact tileImage_imgShape hq wq c r img himg

/-- `x.size()` of a nonempty rectangular tensor is its shape. -/
theorem tShape_of_isShape (t : Tensor) (b c h w : ℕ) (ht : isShape t b c h w)
    (hb : 1 ≤ b) (hc : 1 ≤ c) (hh : 1 ≤ h) : tShape t = ⟨b, c, h, w⟩ := by
  obtain ⟨htl, hmem⟩ := ht
  rcases t with _ | ⟨img, t'⟩
  · exfalso; simp at htl; omega
  · obtain ⟨hcl, hchs⟩ := hmem img (List.mem_cons_self _ _)
    rcases img with _ | ⟨ch, img'⟩
    · exfalso; simp at hcl; omega
    · obtain ⟨hhl, hrows⟩ := hchs ch (List.mem_cons_self _ _)
      rcases ch with _ | ⟨row, ch'⟩
      · exfalso; simp at hhl; omega
      · have hwl := hrows row (List.mem_cons_self _ _)
        simp only [tShape, List.headD, Shape4.mk.injEq]
        exact ⟨htl, hcl, hhl, hwl⟩

/-- `shapeOf` on a nonempty rectangular tensor returns its shape. -/
theorem shapeOf_of_isShape (t : Tensor) (b c h w : ℕ) (ht : isShape t b c h w)
    (hb : 1 ≤ b) (hc : 1 ≤ c) (hh : 1 ≤ h) : shapeOf t = some ⟨b, c, h, w⟩ := by
  have hts := tShape_of_isShape t b c h w ht hb hc hh
  simp only [shapeOf, hts]
  rw [if_pos ht]

/-- `shapeOf` of the repeated key tile: height `hq*r`, width `wq*r`,
except that when `hq = 0` every channel is empty and the measured width
is 0. -/
theorem shapeOf_ke (b c r hq wq : ℕ) (img : Image) (himg : isImgShape img c r r)
    (hb : 1 ≤ b) (hc : 1 ≤ c) (hr : 1 ≤ r) :
    shapeOf (List.replicate b (tileImage hq wq img))
      = some ⟨b, c, hq*r, if hq = 0 then 0 else wq*r⟩ := by
  rcases hq with _ | q
  · -- hq = 0: all channels of the tile are empty
    have hsh : isShape (List.replicate b (tileImage 0 wq img)) b c 0 0 := by
      refine ⟨by simp, fun im hm => ?_⟩
      rw [List.eq_of_mem_replicate hm]
      refine ⟨by simp [tileImage, himg.1], fun ch hch => ?_⟩
      simp only [tileImage, List.replicate_zero, List.flatten_nil, List.mem_map] at hch
      obtain ⟨ch0, _, rfl⟩ := hch
      exact ⟨rfl, by simp⟩
    obtain ⟨b', rfl⟩ : ∃ b', b = b'+1 := ⟨b-1, by omega⟩
    obtain ⟨ch, img', rfl⟩ : ∃ ch img', img = ch :: img' := by
      rcases img with _ | ⟨ch, img'⟩
      · exfalso; have := himg.1; simp at this; omega
      · exact ⟨ch, img', rfl⟩
    have hts : tShape (List.replicate (b'+1) (tileImage 0 wq (ch::img'))) = ⟨b'+1, c, 0, 0⟩ := by
      simp only [tShape, List.replicate_succ, List.headD, tileImage, List.map_cons,
        List.replicate_zero, List.flatten_nil, Shape4.mk.injEq]
      refine ⟨by simp, ?_, rfl, rfl⟩
      simpa using himg.1
    simp only [shapeOf, hts]
    rw [if_pos hsh]
    simp
  · -- hq = q+1 ≥ 1
    have hsh := ke_isShape b c r (q+1) wq img himg
    have hone : 1 ≤ (q+1)*r := by
      calc (1:ℕ) = 1*1 := rfl
        _ ≤ (q+1)*r := Nat.mul_le_mul (by omega) hr
    rw [shapeOf_of_isShape _ b c ((q+1)*r) (wq*r) hsh hb hc hone]
    simp

/-- Evaluation of `makeKe` when the encoder output has the exact
`view` element count. -/
theorem makeKe_eval (encOut : List ℚ) (c r b hq wq : ℕ)
    (henc : encOut.length = c*(r*r)) :
    makeKe encOut c r b hq wq
      = some (List.replicate b (tileImage hq wq (viewBody encOut c r))) := by
  unfold makeKe viewKey
  rw [if_pos henc]
  rfl

/-- C7: key-tile generation.  The linear projection of the key reshapes
(`view(1, c, r, r)`) to a `[1, c, r, r]` tensor (the image part has
shape `[c, r, r]`), is repeated `h/r × w/r` times spatially and `b`
times over the batch; when `r` divides both `h` and `w` the resulting
tile is a `[b, c, h, w]` tensor and both the outermost hiding block and
`RevealNet` concatenate it channel-wise onto their input; when `r` does
not divide `h` (or `w`) both forwards signal a dimension error (`none`)
instead of producing an output. -/
theorem keyTile_generation (model rest : Tensor → Tensor) (W : List (List ℚ))
    (bias : List ℚ) (r : ℕ) (x : Tensor) (k : List ℚ) (b c h w : ℕ)
    (hx : isShape x b c h w) (hb : 1 ≤ b) (hc : 1 ≤ c) (hh : 1 ≤ h) (hw : 1 ≤ w)
    (hr : 1 ≤ r) (hW : W.length = c*(r*r)) (hbias : bias.length = c*(r*r)) :
    isImgShape (viewBody (linearApply W bias k) c r) c r r
    ∧ (r ∣ h → r ∣ w →
        isShape (List.replicate b (tileImage (h/r) (w/r)
            (viewBody (linearApply W bias k) c r))) b c h w
        ∧ unetOutermostKeyForward model W bias r x k
            = some (model (catDim1 x (List.replicate b (tileImage (h/r) (w/r)
                (viewBody (linearApply W bias k) c r)))))
        ∧ revealNetKeyForward rest W bias r x k
            = some (rest (catDim1 x (List.replicate b (tileImage (h/r) (w/r)
                (viewBody (linearApply W bias k) c r))))))
    ∧ (¬ r ∣ h → unetOutermostKeyForward model W bias r x k = none
        ∧ revealNetKeyForward rest W bias r x k = none)
    ∧ (¬ r ∣ w → unetOutermostKeyForward model W bias r x k = none
        ∧ revealNetKeyForward rest W bias r x k = none) := by
  have henc : (linearApply W bias k).length = c*(r*r) := by
    rw [linearApply_length, hW, hbias, Nat.min_self]
  have hview := viewBody_isImgShape (linearApply W bias k) c r henc
  have hts := tShape_of_isShape x b c h w hx hb hc hh
  have hSx : shapeOf x = some ⟨b, c, h, w⟩ := shapeOf_of_isShape x b c h w hx hb hc hh
  refine ⟨hview, ?_, ?_, ?_⟩
  · intro hdh hdw
    have hkes : isShape (List.replicate b (tileImage (h/r) (w/r)
        (viewBody (linearApply W bias k) c r))) b c h w := by
      have hk := ke_isShape b c r (h/r) (w/r) _ hview
      rwa [Nat.div_mul_cancel hdh, Nat.div_mul_cancel hdw] at hk
    have hSke : shapeOf (List.replicate b (tileImage (h/r) (w/r)
        (viewBody (linearApply W bias k) c r))) = some ⟨b, c, h, w⟩ :=
      shapeOf_of_isShape _ b c h w hkes hb hc hh
    refine ⟨hkes, ?_, ?_⟩
    · simp only [unetOutermostKeyForward, hts]
      rw [makeKe_eval _ c r b (h/r) (w/r) henc]
      simp only [Option.some_bind, catDim1Checked, hSx, hSke]
      simp
    · simp only [revealNetKeyForward, hts]
      rw [makeKe_eval _ c r b (h/r) (w/r) henc]
      simp only [Option.some_bind, catDim1Checked, hSx, hSke]
      simp
  · intro hdh
    have hSke := shapeOf_ke b c r (h/r) (w/r) _ hview hb hc hr
    have hne2 : h ≠ h/r*r := fun h2 => hdh ⟨h/r, by rw [mul_comm]; exact h2⟩
    constructor
    · simp only [unetOutermostKeyForward, hts]
      rw [makeKe_eval _ c r b (h/r) (w/r) henc]
      simp only [Option.some_bind, catDim1Checked, hSx, hSke]
      simp [hne2]
    · simp only [revealNetKeyForward, hts]
      rw [makeKe_eval _ c r b (h/r) (w/r) henc]
      simp only [Option.some_bind, catDim1Checked, hSx, hSke]
      simp [hne2]
  · intro hdw
    have hSke := shapeOf_ke b c r (h/r) (w/r) _ hview hb hc hr
    rcases Nat.eq_zero_or_pos (h/r) with h0 | hpos
    · have hh0 : h ≠ 0 := by omega
      have hw0 : w ≠ 0 := by omega
      rw [h0] at hSke
      norm_num at hSke
      constructor
      · simp only [unetOutermostKeyForward, hts]
        rw [makeKe_eval _ c r b (h/r) (w/r) henc]
        simp only [h0, Option.some_bind, catDim1Checked, hSx, hSke]
        simp [hh0, hw0]
      · simp only [revealNetKeyForward, hts]
        rw [makeKe_eval _ c r b (h/r) (w/r) henc]
        simp only [h0, Option.some_bind, catDim1Checked, hSx, hSke]
        simp [hh0, hw0]
    · have hne0 : h/r ≠ 0 := by omega
      have hne3 : w ≠ w/r*r := fun h3 => hdw ⟨w/r, by rw [mul_comm]; exact h3⟩
      constructor
      · simp only [unetOutermostKeyForward, hts]
        rw [makeKe_eval _ c r b (h/r) (w/r) henc]
        simp only [Option.some_bind, catDim1Checked, hSx, hSke]
        simp [hne0, hne3]
      · simp only [revealNetKeyForward, hts]
        rw [makeKe_eval _ c r b (h/r) (w/r) henc]
        simp only [Option.some_bind, catDim1Checked, hSx, hSke]
        simp [hne0, hne3]

/-- Witness for C7 on a `1×1×1×1` input with `r = 1` and a `1×1`
linear encoder. -/
theorem keyTile_generation_witness :
    isImgShape (viewBody (linearApply [[(1:ℚ)]] [0] [1]) 1 1) 1 1 1
    ∧ ((1:ℕ) ∣ 1 → (1:ℕ) ∣ 1 →
        isShape (List.replicate 1 (tileImage (1/1) (1/1)
            (viewBody (linearApply [[(1:ℚ)]] [0] [1]) 1 1))) 1 1 1 1
        ∧ unetOutermostKeyForward id [[(1:ℚ)]] [0] 1 [[[[0]]]] [1]
            = some (id (catDim1 [[[[0]]]] (List.replicate 1 (tileImage (1/1) (1/1)
                (viewBody (linearApply [[(1:ℚ)]] [0] [1]) 1 1)))))
        ∧ revealNetKeyForward id [[(1:ℚ)]] [0] 1 [[[[0]]]] [1]
            = some (id (catDim1 [[[[0]]]] (List.replicate 1 (tileImage (1/1) (1/1)
                (viewBody (linearApply [[(1:ℚ)]] [0] [1]) 1 1))))))
    ∧ (¬ (1:ℕ) ∣ 1 → unetOutermostKeyForward id [[(1:ℚ)]] [0] 1 [[[[0]]]] [1] = none
        ∧ revealNetKeyForward id [[(1:ℚ)]] [0] 1 [[[[0]]]] [1] = none)
    ∧ (¬ (1:ℕ) ∣ 1 → unetOutermostKeyForward id [[(1:ℚ)]] [0] 1 [[[[0]]]] [1] = none
        ∧ revealNetKeyForward id [[(1:ℚ)]] [0] 1 [[[[0]]]] [1] = none) :=
  keyTile_generation id id [[(1:ℚ)]] [0] 1 [[[[0]]]] [1] 1 1 1 1
    (by decide) (by decide) (by decide) (by decide) (by decide) (by decide)
    (by decide) (by decide)

end SDH
